import Mathlib

/-!
Verification of the portfolio page behavior layer (`src/script.js`).

The file shallowly embeds the script's data model and operations in Lean:
pure fragments become Lean functions, DOM/timer side effects become explicit
state passing, `Math.random()` becomes an oracle parameter, and the few
platform builtins the script relies on (`parseFloat`, `Number.toFixed`,
`String.trim` emptiness) are modelled as executable Lean functions on the
decimal fragment the page uses (no exponents, no `Infinity`).
-/

namespace Portfolio

/-! ### Platform string helpers -/

/-- JS `!s.trim()`: a string is empty after trimming iff every character is
whitespace (this also covers the empty string, which is falsy in JS). -/
def jsTrimEmpty (s : String) : Bool :=
  s.data.all Char.isWhitespace

/-- Decimal digit list of a natural number, fuel-based (fuel `n + 1` always
suffices since `n / 10 < n` for `n ≥ 10`); accumulates on the right. -/
def natCharsAux : Nat → Nat → List Char → List Char
  | 0, _, acc => acc
  | fuel + 1, n, acc =>
    if n < 10 then Nat.digitChar n :: acc
    else natCharsAux fuel (n / 10) (Nat.digitChar (n % 10) :: acc)

/-- Decimal string of a natural number (models JS integer `toString`). -/
def natStr (n : Nat) : String :=
  String.mk (natCharsAux (n + 1) n [])

/-- Decimal string of an integer (models JS number-to-string for integers). -/
def intStr (n : Int) : String :=
  if n < 0 then "-" ++ natStr n.natAbs else natStr n.toNat

/-- Numeric value of a list of decimal digit characters. -/
def digitsToNat (l : List Char) : Nat :=
  l.foldl (fun a c => a * 10 + (c.toNat - 48)) 0

/-- Lexing stage of the platform `parseFloat` on the decimal fragment the
page uses: skip leading whitespace, optional sign, integer digits, optional
`.` and fraction digits, ignore any trailing garbage; `none` models `NaN`
(no digit at all).  Returns `(sign, integer digits value, fraction digits
value, fraction digit count)`.  Exponent and `Infinity` forms are not used
by the page and are omitted. -/
def parseFloatParts (s : String) : Option (Int × Nat × Nat × Nat) :=
  let l := s.data.dropWhile Char.isWhitespace
  let sg : ℤ := match l with
    | '-' :: _ => -1
    | _ => 1
  let l1 : List Char := match l with
    | '-' :: r => r
    | '+' :: r => r
    | _ => l
  let ip := l1.takeWhile Char.isDigit
  let r1 := l1.dropWhile Char.isDigit
  let fp : List Char := match r1 with
    | '.' :: r => r.takeWhile Char.isDigit
    | _ => []
  if ip.isEmpty ∧ fp.isEmpty then none
  else some (sg, digitsToNat ip, digitsToNat fp, fp.length)

/-- Model of the platform `parseFloat`: the numeric value of the lexed
parts, `none` for `NaN`. -/
def parseFloatJS (s : String) : Option ℚ :=
  (parseFloatParts s).map fun p =>
    (p.1 : ℚ) * ((p.2.1 : ℚ) + (p.2.2.1 : ℚ) / (10 : ℚ) ^ p.2.2.2)

/-- Model of `x.toFixed(2)` for a nonnegative rational: round half up to
hundredths, then print `int.frac` with the fraction zero-padded to width 2. -/
def toFixed2Pos (q : ℚ) : String :=
  let n : Nat := (Int.floor (q * 100 + 1 / 2)).toNat
  natStr (n / 100) ++ "." ++ (if n % 100 < 10 then "0" ++ natStr (n % 100) else natStr (n % 100))

/-- Model of JS `x.toFixed(2)` (sign handled first, as in ECMA-262). -/
def toFixed2 (q : ℚ) : String :=
  if q < 0 then "-" ++ toFixed2Pos (-q) else toFixed2Pos q

/-! ### Theme system (`script.js` lines 8, 119-171)

`localStorage.getItem('theme')` yields `none` (null) or a string; the OS
preference query `matchMedia('(prefers-color-scheme: dark)').matches` is
`none` when unreadable, `some b` with `b` = "prefers dark" otherwise. -/

/-- Line 8: `currentTheme = localStorage.getItem('theme') || 'dark'`.
The `||` falls through on `null` and on the empty string (both falsy). -/
def getStoredTheme : Option String → String
  | none => "dark"
  | some s => if s = "" then "dark" else s

/-- `initializeTheme` (lines 119-136): sets `data-theme` on the document root
to `currentTheme` and registers listeners.  Returns
`(currentTheme, document data-theme)`.  The OS preference argument is
deliberately unused: the code only registers a change listener and never
reads `mediaQuery.matches` during initialization. -/
def initializeTheme (stored : Option String) (osPrefersDark : Option Bool) :
    String × String :=
  let t := getStoredTheme stored
  (t, t)

/-- The theme-resolution rule claimed by the spec, for comparison: explicit
stored value first, else the OS-level preference, else `dark`. -/
def initializeThemeClaimed (stored : Option String) (osPrefersDark : Option Bool) :
    String :=
  match stored with
  | some s =>
    if s = "" then
      match osPrefersDark with
      | some b => if b then "dark" else "light"
      | none => "dark"
    else s
  | none =>
    match osPrefersDark with
    | some b => if b then "dark" else "light"
    | none => "dark"

/-- `handleSystemThemeChange` (lines 165-171): on an OS preference change
event, update the active theme only when no stored value exists (JS
truthiness: `null` and `""` both count as "not stored"). -/
def handleSystemThemeChange (stored : Option String) (eMatches : Bool)
    (current : String) : String :=
  match stored with
  | none => if eMatches then "dark" else "light"
  | some s =>
    if s = "" then (if eMatches then "dark" else "light") else current

/-! ### Matrix background (`script.js` lines 467-515) -/

/-- Canvas surface plus the per-column drop rows of the matrix effect. -/
structure MatrixState where
  canvasWidth : Nat
  canvasHeight : Nat
  drops : List Nat
  deriving Repr, DecidableEq

/-- `initializeMatrixBackground` (lines 485-494): size the canvas, then
`columns = Math.floor(canvas.width / 20)` and `drops = Array(columns).fill(0)`. -/
def initializeMatrixBackground (w h : Nat) : MatrixState :=
  { canvasWidth := w, canvasHeight := h, drops := List.replicate (w / 20) 0 }

/-- `resizeCanvas` (lines 485-488), as installed debounced on `resize`: it
only reassigns `canvas.width`/`canvas.height`; `columns` and `drops` are
`const` bindings created once and are not touched. -/
def resizeCanvas (s : MatrixState) (w h : Nat) : MatrixState :=
  { s with canvasWidth := w, canvasHeight := h }

/-- Drop update of one `drawMatrix` tick (lines 503-511): for column `i`,
if `drops[i] * 20 > canvas.height` and the random draw exceeds 0.975 the
row resets to 0; then `drops[i]++`.  `reset i` is the oracle for
`Math.random() > 0.975` at column `i`. -/
def updateDrops (h : Nat) (reset : Nat → Bool) : Nat → List Nat → List Nat
  | _, [] => []
  | i, d :: rest =>
    ((if d * 20 > h ∧ reset i = true then 0 else d) + 1) :: updateDrops h reset (i + 1) rest

/-- One `drawMatrix` tick's effect on the column state. -/
def drawMatrixStep (s : MatrixState) (reset : Nat → Bool) : MatrixState :=
  { s with drops := updateDrops s.canvasHeight reset 0 s.drops }

theorem updateDrops_length (h : Nat) (reset : Nat → Bool) :
    ∀ (i : Nat) (l : List Nat), (updateDrops h reset i l).length = l.length := by
  intro i l
  induction l generalizing i with
  | nil => rfl
  | cons d rest ih => simp [updateDrops, ih]

/-! ### Typing animation (`script.js` lines 365-409) -/

/-- The typing effect's mutable closure state.  `charIndex` is an `Int`
because the JS variable is an ordinary number that the code decrements. -/
structure TypingState where
  texts : List String
  textIndex : Nat
  charIndex : Int
  isDeleting : Bool
  deriving Repr, DecidableEq

/-- One `typeText` tick (lines 382-405): update `charIndex`, render
`currentText.substring(0, charIndex)` (JS `substring` clamps, as does
`String.take` on `Int.toNat`), then pick the next delay and transition.
Returns `(new state, rendered text, setTimeout delay in ms)`. -/
def typeTextStep (s : TypingState) : TypingState × String × Nat :=
  let currentText := s.texts.getD s.textIndex ""
  let charIndex2 : Int := if s.isDeleting then s.charIndex - 1 else s.charIndex + 1
  let display := currentText.take charIndex2.toNat
  let typeSpeed : Nat := if s.isDeleting then 50 else 100
  if s.isDeleting = false ∧ charIndex2 = (currentText.length : Int) then
    ({ s with charIndex := charIndex2, isDeleting := true }, display, 2000)
  else if s.isDeleting = true ∧ charIndex2 = 0 then
    ({ s with charIndex := charIndex2, isDeleting := false, textIndex := (s.textIndex + 1) % s.texts.length }, display, 500)
  else
    ({ s with charIndex := charIndex2 }, display, typeSpeed)

/-- The `(rendered text, delay)` outputs of the first `n` ticks. -/
def typeTrace : TypingState → Nat → List (String × Nat)
  | _, 0 => []
  | s, n + 1 =>
    let r := typeTextStep s
    (r.2.1, r.2.2) :: typeTrace r.1 n

/-- The state after `n` ticks. -/
def typeStateAfter : TypingState → Nat → TypingState
  | s, 0 => s
  | s, n + 1 => typeStateAfter (typeTextStep s).1 n

/-- Module-level flag plus how many timer chains have been started; models
`typingAnimationRunning` (line 9) and the `setTimeout(typeText, 1000)` kick. -/
structure TypingInitState where
  hasTypingText : Bool
  typingAnimationRunning : Bool
  timerChains : Nat
  deriving Repr, DecidableEq

/-- `initializeTypingAnimation` (lines 365-380, 408): return unchanged when
the target element is missing or the guard flag is set; otherwise set the
flag and start one timer chain. -/
def initializeTypingAnimation (s : TypingInitState) : TypingInitState :=
  if s.hasTypingText = false ∨ s.typingAnimationRunning = true then s
  else { s with typingAnimationRunning := true, timerChains := s.timerChains + 1 }

/-! ### Form validation (`script.js` lines 708-762) -/

/-- A character admitted by the classes `[^\s@]` of the email regex. -/
def isEmailChar (c : Char) : Bool :=
  !c.isWhitespace && c != '@'

/-- Split a character list at its first `'@'`; `none` when there is none.
The regex can only match around the first `'@'` because neither side's
character class admits `'@'`. -/
def splitAtAt : List Char → Option (List Char × List Char)
  | [] => none
  | c :: rest =>
    if c = '@' then some ([], rest)
    else
      match splitAtAt rest with
      | some (a, b) => some (c :: a, b)
      | none => none

/-- Full-match test of `^[^\s@]+@[^\s@]+\.[^\s@]+$` (line 721): a nonempty
`[^\s@]+` block, `'@'`, then a block that is all `[^\s@]` and contains a
`'.'` that is neither its first nor its last character. -/
def emailMatch (s : String) : Bool :=
  match splitAtAt s.data with
  | some (a, b) =>
    !a.isEmpty && a.all isEmailChar && b.all isEmailChar &&
      ((b.drop 1).dropLast).contains '.'
  | none => false

/-- The slice of a DOM input element that `validateField` consults. -/
structure FormField where
  required : Bool
  fieldType : String
  value : String
  deriving Repr, DecidableEq

/-- The `isValid`/`errorMessage` pair computed by lines 710-726: the
required check first, then (for email-typed fields with a truthy value) the
regex check, which overwrites the message. -/
def validateFieldCore (f : FormField) : Bool × String :=
  let r1 : Bool × String :=
    if f.required = true ∧ jsTrimEmpty f.value = true then
      (false, "This field is required")
    else (true, "")
  if f.fieldType = "email" ∧ f.value ≠ "" ∧ emailMatch f.value = false then
    (false, "Please enter a valid email address")
  else r1

/-- `validateField` (lines 708-738): returns `isValid` and the inline error
the form group displays afterwards (`showFieldError` attaches the message
when invalid, `hideFieldError` removes it when valid). -/
def validateField (f : FormField) : Bool × Option String :=
  let r := validateFieldCore f
  (r.1, if r.1 = true then none else some r.2)

/-! ### Form submission (`script.js` lines 790-849) -/

/-- The submit control's observable state. -/
structure SubmitBtn where
  disabled : Bool
  label : String
  loading : Bool
  deriving Repr, DecidableEq

/-- Observable outcome of the synchronous part of `handleFormSubmit`:
the button state afterwards, the notifications raised, whether the
mail-client handoff happened, and whether the pending (loading) state was
entered. -/
structure SubmitOutcome where
  btn : SubmitBtn
  notifications : List (String × String)
  mailtoOpened : Bool
  enteredPending : Bool
  deriving Repr, DecidableEq

/-- `handleFormSubmit` (lines 790-815), synchronous part: validate every
field; if any is invalid, raise one aggregate error toast and return;
otherwise disable the button, swap its label to `Sending...` and enter the
loading state (the mailto handoff only happens in the `setTimeout` callback
2000ms later, never on this path). -/
def handleFormSubmit (fields : List FormField) (btn : SubmitBtn) : SubmitOutcome :=
  let isFormValid := fields.all fun f => (validateField f).1
  if isFormValid = false then
    { btn := btn, notifications := [("Please correct the errors above", "error")],
      mailtoOpened := false, enteredPending := false }
  else
    { btn := { disabled := true, label := "Sending...", loading := true },
      notifications := [], mailtoOpened := false, enteredPending := true }

/-- The delayed completion callback (lines 817-848): open the mailto link,
reset the form and button, and raise the success toast. -/
def handleFormSubmitCompletion (originalLabel : String) : SubmitOutcome :=
  { btn := { disabled := false, label := originalLabel, loading := false },
    notifications := [("Message sent successfully! Your email client should open shortly.", "success")],
    mailtoOpened := true, enteredPending := false }

/-! ### Notification lifecycle (`script.js` lines 1447-1519)

`showNotification` schedules timeouts; we model the timer queue as a
time-ordered event list processed by a small interpreter.  A user click is
an externally injected event. -/

/-- Timer/user events of one notification's lifecycle. -/
inductive NEv where
  | animIn
  | autoDismiss
  | clickEv
  | removeEl
  deriving Repr, DecidableEq

/-- The notification element's state: in the DOM, visually shown, and the
time its removal callback actually detached it. -/
structure NState where
  attached : Bool
  shown : Bool
  removedAt : Option Nat
  deriving Repr, DecidableEq

/-- Insert an event into the queue by time (stable for equal times, like
`setTimeout` FIFO ordering). -/
def insertEv (e : Nat × NEv) : List (Nat × NEv) → List (Nat × NEv)
  | [] => [e]
  | f :: rest => if e.1 < f.1 then e :: f :: rest else f :: insertEv e rest

/-- Process the queue: `animIn` (the 100ms timeout) shows the element;
`autoDismiss` (the 5000ms timeout) and `clickEv` (the click handler) hide
it and schedule removal 300ms later; `removeEl` removes the element only if
it still has a parent (the `notification.parentNode` guard).  Fuel bounds
the number of processed events. -/
def runQ : Nat → NState → List (Nat × NEv) → NState
  | _, s, [] => s
  | 0, s, _ => s
  | Nat.succ fuel, s, (t, e) :: rest =>
    match e with
    | NEv.animIn => runQ fuel { s with shown := true } rest
    | NEv.autoDismiss => runQ fuel { s with shown := false } (insertEv (t + 300, NEv.removeEl) rest)
    | NEv.clickEv => runQ fuel { s with shown := false } (insertEv (t + 300, NEv.removeEl) rest)
    | NEv.removeEl =>
      if s.attached = true then
        runQ fuel { attached := false, shown := s.shown, removedAt := some t } rest
      else runQ fuel s rest

/-- `showNotification` (lines 1447-1519) for one notification: the element
starts attached and hidden; the code schedules `animIn` at 100ms and
`autoDismiss` at 5000ms, and `click` (if the user clicks at time `t`)
injects `clickEv` at `t`.  Eight units of fuel cover the at most five
events that can arise. -/
def showNotifRun (click : Option Nat) : NState :=
  let base := [(100, NEv.animIn), (5000, NEv.autoDismiss)]
  let q := match click with
    | some t => insertEv (t, NEv.clickEv) base
    | none => base
  runQ 8 { attached := true, shown := false, removedAt := none } q

/-! ### One-shot viewport subscriptions (`script.js` lines 1163-1175, 1249-1265)

Elements are modelled by numeric ids; an observer is its characteristic
function over observed elements. -/

/-- `observer.unobserve(el)`. -/
def unobserve (obs : Nat → Bool) (e : Nat) : Nat → Bool :=
  fun x => if x = e then false else obs x

/-- Outcome of delivering one intersection entry. -/
structure CrossResult where
  observers : Nat → Bool
  callbackFired : Bool

/-- The stats observer callback (lines 1163-1169): an entry for element `e`
is delivered only while `e` is observed; if it is intersecting, run
`animateStatValue` (here: `callbackFired`) and `unobserve` it. -/
def statsObserverDeliver (obs : Nat → Bool) (e : Nat) (isIntersecting : Bool) :
    CrossResult :=
  if obs e = true ∧ isIntersecting = true then
    { observers := unobserve obs e, callbackFired := true }
  else
    { observers := obs, callbackFired := false }

/-- The lazy-image observer callback (lines 1251-1260) has the same one-shot
shape: swap `src` in, then `unobserve`. -/
def lazyImageDeliver (obs : Nat → Bool) (e : Nat) (isIntersecting : Bool) :
    CrossResult :=
  if obs e = true ∧ isIntersecting = true then
    { observers := unobserve obs e, callbackFired := true }
  else
    { observers := obs, callbackFired := false }

/-! ### Stat counter animation (`script.js` lines 1215-1243) -/

/-- `duration = 2000`. -/
def statDuration : Nat := 2000

/-- The 50 steps of the loop (`increment = numericValue / 50`). -/
def statSteps : Nat := 50

/-- `stepTime = duration / 50`. -/
def statStepTime : Nat := statDuration / statSteps

/-- Successive values of `currentValue` over the interval ticks: each tick
adds `inc`; once the sum reaches `v` it is clamped to `v`, that final value
is still rendered, and the interval is cleared.  Fuel bounds the tick
count; 60 units are enough for the at most 50 ticks any value needs. -/
def animAux (v inc : ℚ) : ℚ → Nat → List ℚ
  | _, 0 => []
  | cv, fuel + 1 =>
    if v ≤ cv + inc then [v] else (cv + inc) :: animAux v inc (cv + inc) fuel

/-- The `currentValue` sequence for target value `v`. -/
def animValues (v : ℚ) : List ℚ :=
  animAux v (v / 50) 0 60

/-- Per-tick text formatting (lines 1234-1242): the decimal-point format is
checked first, then the `'+'` suffix, else plain integer. -/
def formatStat (orig : String) (q : ℚ) : String :=
  if '.' ∈ orig.data then toFixed2 q
  else if '+' ∈ orig.data then intStr (Int.floor q) ++ "+"
  else intStr (Int.floor q)

/-- `animateStatValue` (lines 1215-1243): parse the element's text; on `NaN`
do nothing (`none`); otherwise the list of texts rendered tick by tick. -/
def animateStatValue (orig : String) : Option (List String) :=
  (parseFloatJS orig).map fun v => (animValues v).map (formatStat orig)

/-- The element's final text: the last rendered step, or the original text
when the animation was skipped. -/
def finalStatText (orig : String) : String :=
  match animateStatValue orig with
  | none => orig
  | some l => l.getLast?.getD orig

/-! ### Supporting lemmas -/

theorem splitAtAt_mem :
    ∀ (l a b : List Char), splitAtAt l = some (a, b) → '@' ∈ l := by
  intro l
  induction l with
  | nil => intro a b h; simp [splitAtAt] at h
  | cons c rest ih =>
    intro a b h
    by_cases hc : c = '@'
    · simp [hc]
    · simp only [splitAtAt, if_neg hc] at h
      rcases hr : splitAtAt rest with _ | ⟨x, y⟩
      · rw [hr] at h; simp at h
      · exact List.mem_cons_of_mem c (ih x y hr)

theorem jsTrimEmpty_eq_false_of_emailMatch {v : String}
    (h : emailMatch v = true) : jsTrimEmpty v = false := by
  cases hs : splitAtAt v.data with
  | none => simp [emailMatch, hs] at h
  | some p =>
    have hat : '@' ∈ v.data := splitAtAt_mem v.data p.1 p.2 (by rw [hs])
    have hnall : ¬ v.data.all Char.isWhitespace = true := by
      intro hall
      have := List.all_eq_true.mp hall '@' hat
      exact absurd this (by decide)
    simpa [jsTrimEmpty] using hnall

theorem emailMatch_eq_false_of_jsTrimEmpty {v : String}
    (h : jsTrimEmpty v = true) : emailMatch v = false := by
  cases hm : emailMatch v with
  | false => rfl
  | true => rw [jsTrimEmpty_eq_false_of_emailMatch hm] at h; exact absurd h (by simp)

theorem digitChar_ne_plus {d : Nat} (hd : d < 10) : Nat.digitChar d ≠ '+' := by
  interval_cases d <;> decide

theorem natCharsAux_ne_plus :
    ∀ (fuel n : Nat) (acc : List Char), (∀ c ∈ acc, c ≠ '+') →
      ∀ c ∈ natCharsAux fuel n acc, c ≠ '+' := by
  intro fuel
  induction fuel with
  | zero => intro n acc hacc c hc; exact hacc c hc
  | succ fuel ih =>
    intro n acc hacc c hc
    by_cases hn : n < 10
    · simp only [natCharsAux, if_pos hn] at hc
      rcases List.mem_cons.mp hc with h | h
      · exact h ▸ digitChar_ne_plus hn
      · exact hacc c h
    · simp only [natCharsAux, if_neg hn] at hc
      refine ih (n / 10) _ ?_ c hc
      intro c2 hc2
      rcases List.mem_cons.mp hc2 with h | h
      · exact h ▸ digitChar_ne_plus (Nat.mod_lt n (by norm_num))
      · exact hacc c2 h

theorem natStr_ne_plus (n : Nat) : '+' ∉ (natStr n).data := by
  intro h
  exact natCharsAux_ne_plus (n + 1) n [] (by simp) '+' h rfl

theorem toFixed2Pos_no_plus (q : ℚ) : '+' ∉ (toFixed2Pos q).data := by
  intro h
  simp only [toFixed2Pos] at h
  split_ifs at h <;> simp only [String.data_append, List.mem_append] at h
  · rcases h with (h | h) | h | h
    · exact natStr_ne_plus _ h
    · exact absurd h (by decide)
    · exact absurd h (by decide)
    · exact natStr_ne_plus _ h
  · rcases h with (h | h) | h
    · exact natStr_ne_plus _ h
    · exact absurd h (by decide)
    · exact natStr_ne_plus _ h

theorem toFixed2_no_plus (q : ℚ) : '+' ∉ (toFixed2 q).data := by
  intro h
  unfold toFixed2 at h
  split_ifs at h
  · simp only [String.data_append, List.mem_append] at h
    rcases h with h | h
    · exact absurd h (by decide)
    · exact toFixed2Pos_no_plus _ h
  · exact toFixed2Pos_no_plus _ h

theorem animAux_getLast :
    ∀ (fuel : Nat) (v cv : ℚ), 0 < v → v ≤ cv + ((fuel : ℚ) + 1) * (v / 50) →
      (animAux v (v / 50) cv (fuel + 1)).getLast? = some v := by
  intro fuel
  induction fuel with
  | zero =>
    intro v cv hv hle
    have h1 : v ≤ cv + v / 50 := by push_cast at hle; linarith
    simp [animAux, h1]
  | succ fuel ih =>
    intro v cv hv hle
    by_cases hc : v ≤ cv + v / 50
    · simp [animAux, hc]
    · have hrec : v ≤ (cv + v / 50) + ((fuel : ℚ) + 1) * (v / 50) := by
        push_cast at hle ⊢
        linarith
      have hlast := ih v (cv + v / 50) hv hrec
      rw [animAux, if_neg hc]
      rcases hr : animAux v (v / 50) (cv + v / 50) (fuel + 1) with _ | ⟨r, rs⟩
      · rw [hr] at hlast; simp at hlast
      · rw [hr] at hlast
        rw [List.getLast?_cons_cons]
        exact hlast

theorem animValues_getLast (v : ℚ) : (animValues v).getLast? = some v := by
  by_cases hv : 0 < v
  · have h59 := animAux_getLast 59 v 0 hv (by push_cast; linarith)
    unfold animValues
    exact h59
  · have hle : v ≤ 0 := le_of_not_lt hv
    have h1 : v ≤ 0 + v / 50 := by linarith
    unfold animValues
    show (animAux v (v / 50) 0 (59 + 1)).getLast? = some v
    rw [animAux, if_pos h1]
    rfl

/-! ### Claim C1 (theme initialization precedence) -/

/-- C1, counterexample: the claim says initialization falls back to the
OS-level preference before `dark`, but with nothing stored and a readable
OS preference for light, `initializeTheme` still yields `dark` while the
claimed precedence yields `light`. -/
theorem initializeTheme_os_precedence_refuted :
    (initializeTheme none (some false)).1 = "dark" ∧
    initializeThemeClaimed none (some false) = "light" ∧
    (initializeTheme none (some false)).1 ≠ initializeThemeClaimed none (some false) := by
  refine ⟨rfl, rfl, ?_⟩
  decide

/-- C1, amended: theme initialization resolves the active theme from the
stored preference alone — a nonempty stored value wins, otherwise `dark` —
and is independent of the OS preference, which influences the theme only
through later change events (`handleSystemThemeChange`) when nothing is
stored; in particular with nothing stored `initialize()` yields `dark` and
applies it to the document root. -/
theorem initializeTheme_stored_else_dark :
    (∀ stored os1 os2, initializeTheme stored os1 = initializeTheme stored os2) ∧
    (∀ os, initializeTheme none os = ("dark", "dark")) ∧
    (∀ s os, initializeTheme (some s) os =
      (if s = "" then ("dark", "dark") else (s, s))) ∧
    (∀ m cur, handleSystemThemeChange none m cur = (if m then "dark" else "light")) ∧
    (∀ s m cur, handleSystemThemeChange (some s) m cur =
      (if s = "" then (if m then "dark" else "light") else cur)) := by
  refine ⟨fun stored os1 os2 => rfl, fun os => rfl, ?_, fun m cur => rfl, ?_⟩
  · intro s os
    by_cases h : s = "" <;> simp [initializeTheme, getStoredTheme, h]
  · intro s m cur
    by_cases h : s = "" <;> simp [handleSystemThemeChange, h]

/-! ### Claim C2 (matrix column-count invariant on resize) -/

/-- The concrete run used by the counterexample: initialize at width 400
(20 columns), advance one draw tick (all rows become 1), then a debounced
resize to width 800. -/
def matrixAfterResizeEx : MatrixState :=
  resizeCanvas (drawMatrixStep (initializeMatrixBackground 400 300) (fun _ => false)) 800 600

/-- C2, counterexample: after the resize the column count is still 20 while
`floor(new width / 20)` is 40, and the column row positions are the old
ones (1), not reset. -/
theorem matrix_resize_invariant_refuted :
    matrixAfterResizeEx.drops.length = 20 ∧
    matrixAfterResizeEx.canvasWidth / 20 = 40 ∧
    matrixAfterResizeEx.drops.length ≠ matrixAfterResizeEx.canvasWidth / 20 ∧
    matrixAfterResizeEx.drops ≠
      List.replicate (matrixAfterResizeEx.canvasWidth / 20) 0 ∧
    matrixAfterResizeEx.drops.head? = some 1 := by
  refine ⟨?_, ?_, ?_, ?_, ?_⟩ <;> decide

/-- C2, amended: the invariant `columns = floor(canvas width / 20)` holds
after initialization, and the draw loop preserves the column count; but the
debounced resize handler only updates the canvas dimensions — it neither
recomputes the column count from the new width nor resets row positions. -/
theorem matrix_columns_fixed_at_init :
    (∀ w h, (initializeMatrixBackground w h).drops.length = w / 20) ∧
    (∀ s w h, (resizeCanvas s w h).drops = s.drops) ∧
    (∀ s w h, (resizeCanvas s w h).canvasWidth = w ∧ (resizeCanvas s w h).canvasHeight = h) ∧
    (∀ s reset, (drawMatrixStep s reset).drops.length = s.drops.length) := by
  refine ⟨?_, fun s w h => rfl, fun s w h => ⟨rfl, rfl⟩, ?_⟩
  · intro w h
    simp [initializeMatrixBackground]
  · intro s reset
    exact updateDrops_length s.canvasHeight reset 0 s.drops

/-! ### General facts about the counter value sequence -/

theorem animAux_chain_lt (v inc : ℚ) (hinc : 0 < inc) :
    ∀ (fuel : Nat) (cv : ℚ), cv < v →
      List.Chain' (fun a b => a < b) (cv :: animAux v inc cv fuel) := by
  intro fuel
  induction fuel with
  | zero => intro cv hcv; simp [animAux]
  | succ fuel ih =>
    intro cv hcv
    rw [animAux]
    by_cases hc : v ≤ cv + inc
    · rw [if_pos hc]
      exact List.chain'_cons.mpr ⟨hcv, by simp⟩
    · rw [if_neg hc]
      exact List.chain'_cons.mpr ⟨by linarith, ih (cv + inc) (lt_of_not_le hc)⟩

theorem animValues_chain_lt (v : ℚ) (hv : 0 < v) :
    List.Chain' (fun a b => a < b) (animValues v) := by
  have h := animAux_chain_lt v (v / 50) (by positivity) 60 0 hv
  exact h.tail

theorem animAux_closed (v : ℚ) (hv : 0 < v) :
    ∀ (fuel j : Nat), j < 50 → 50 ≤ j + fuel →
      animAux v (v / 50) ((j : ℚ) * (v / 50)) fuel =
        (List.range (50 - j)).map (fun (k : ℕ) => ((j : ℚ) + (k : ℚ) + 1) * (v / 50)) := by
  intro fuel
  induction fuel with
  | zero => intro j hj hf; omega
  | succ fuel ih =>
    intro j hj hf
    have hinc : 0 < v / 50 := by positivity
    rw [animAux]
    by_cases hj49 : j = 49
    · subst hj49
      have heq : ((49 : ℕ) : ℚ) * (v / 50) + v / 50 = v := by push_cast; ring
      rw [if_pos (le_of_eq heq.symm)]
      rw [show (50 : ℕ) - 49 = 1 from rfl, show List.range 1 = [0] from rfl]
      simp only [List.map_cons, List.map_nil]
      congr 1
      push_cast
      ring
    · have hjlt : j + 1 < 50 := by omega
      have hcond : ¬ v ≤ (j : ℚ) * (v / 50) + v / 50 := by
        rw [not_le]
        have h2 : ((j : ℚ) + 1) * (v / 50) < 50 * (v / 50) := by
          apply mul_lt_mul_of_pos_right _ hinc
          exact_mod_cast hjlt
        have h3 : (50 : ℚ) * (v / 50) = v := by ring
        nlinarith [h2, h3]
      rw [if_neg hcond]
      have harg : (j : ℚ) * (v / 50) + v / 50 = ((j + 1 : ℕ) : ℚ) * (v / 50) := by
        push_cast; ring
      rw [harg, ih (j + 1) hjlt (by omega)]
      rw [show (50 : ℕ) - j = (49 - j) + 1 by omega, show (50 : ℕ) - (j + 1) = 49 - j by omega]
      rw [List.range_succ_eq_map, List.map_cons, List.map_map]
      congr 1
      · push_cast; ring
      · apply List.map_congr_left
        intro k hk
        simp only [Function.comp_apply]
        push_cast
        ring

theorem animValues_closed (v : ℚ) (hv : 0 < v) :
    animValues v = (List.range 50).map (fun (k : ℕ) => ((k : ℚ) + 1) * (v / 50)) := by
  have h := animAux_closed v hv 60 0 (by norm_num) (by norm_num)
  rw [Nat.cast_zero, zero_mul] at h
  rw [show (50 : ℕ) - 0 = 50 from rfl] at h
  unfold animValues
  rw [h]
  apply List.map_congr_left
  intro k hk
  ring

/-! ### Claim C3 (counter animation for "42+") -/

/-- C3, counterexample: the rendered sequence for initial text `"42+"` is
not strictly increasing — steps 6 and 7 (indices 5 and 6) both render
`"5+"`, because `floor(6 * 0.84) = floor(7 * 0.84) = 5`. -/
theorem animateStat42_not_strictly_increasing :
    ((animateStatValue "42+").getD [])[5]? = some "5+" ∧
    ((animateStatValue "42+").getD [])[6]? = some "5+" ∧
    ¬ List.Chain' (fun a b => a < b) ((animValues 42).map Int.floor) := by
  have hp : parseFloatParts "42+" = some (1, 42, 0, 0) := by decide
  have hv : parseFloatJS "42+" = some 42 := by
    rw [parseFloatJS, hp, Option.map_some']
    norm_num
  have hmap : animateStatValue "42+" = some ((animValues 42).map (formatStat "42+")) := by
    rw [animateStatValue, hv, Option.map_some']
  have hclosed := animValues_closed 42 (by norm_num)
  have hfmt : ∀ q : ℚ, formatStat "42+" q = intStr (Int.floor q) ++ "+" := by
    intro q
    rw [formatStat, if_neg (by decide), if_pos (by decide)]
  have hentry : ∀ m : ℕ, m < 50 →
      ((animateStatValue "42+").getD [])[m]? =
        some (intStr (Int.floor (((m : ℚ) + 1) * (42 / 50))) ++ "+") := by
    intro m hm
    rw [hmap, Option.getD_some, List.getElem?_map, hclosed, List.getElem?_map,
      List.getElem?_range hm, Option.map_some', Option.map_some', hfmt]
  refine ⟨?_, ?_, ?_⟩
  · rw [hentry 5 (by norm_num)]
    rw [show (((5 : ℕ) : ℚ) + 1) * (42 / 50 : ℚ) = 126 / 25 by push_cast; norm_num]
    rw [show Int.floor ((126 : ℚ) / 25) = 5 by norm_num]
    decide
  · rw [hentry 6 (by norm_num)]
    rw [show (((6 : ℕ) : ℚ) + 1) * (42 / 50 : ℚ) = 147 / 25 by push_cast; norm_num]
    rw [show Int.floor ((147 : ℚ) / 25) = 5 by norm_num]
    decide
  · intro hch
    rw [hclosed, List.map_map] at hch
    have h5 := List.chain'_iff_get.mp hch 5 (by simp)
    simp only [List.get_eq_getElem, List.getElem_map, List.getElem_range,
      Function.comp_apply] at h5
    rw [show (((5 : ℕ) : ℚ) + 1) * (42 / 50 : ℚ) = 126 / 25 by push_cast; norm_num,
      show (((6 : ℕ) : ℚ) + 1) * (42 / 50 : ℚ) = 147 / 25 by push_cast; norm_num] at h5
    rw [show Int.floor ((126 : ℚ) / 25) = 5 by norm_num,
      show Int.floor ((147 : ℚ) / 25) = 5 by norm_num] at h5
    exact absurd h5 (by norm_num)

/-- C3, amended: for initial text `"42+"` the animation renders 50 steps
over 2000ms (40ms per step), each formatted as `floor(value) + "+"`; the
underlying counter values are strictly increasing, the rendered magnitudes
are non-decreasing from 0 to 42 (with repeats, so not strictly
increasing), and the final rendered text is exactly `"42+"`. -/
theorem animateStat42_amended :
    animateStatValue "42+" = some ((animValues 42).map (formatStat "42+")) ∧
    ((animateStatValue "42+").getD []).length = 50 ∧
    ((animateStatValue "42+").getD []).head? = some "0+" ∧
    ((animateStatValue "42+").getD []).getLast? = some "42+" ∧
    finalStatText "42+" = "42+" ∧
    List.Chain' (fun a b => a ≤ b) ((animValues 42).map Int.floor) ∧
    List.Chain' (fun a b => a < b) (animValues 42) ∧
    statDuration = 2000 ∧ statSteps = 50 ∧ statStepTime = 40 := by
  have hp : parseFloatParts "42+" = some (1, 42, 0, 0) := by decide
  have hv : parseFloatJS "42+" = some 42 := by
    rw [parseFloatJS, hp, Option.map_some']
    norm_num
  have hmap : animateStatValue "42+" = some ((animValues 42).map (formatStat "42+")) := by
    rw [animateStatValue, hv, Option.map_some']
  have hclosed := animValues_closed 42 (by norm_num)
  have hfmt : ∀ q : ℚ, formatStat "42+" q = intStr (Int.floor q) ++ "+" := by
    intro q
    rw [formatStat, if_neg (by decide), if_pos (by decide)]
  have hlast : ((animValues 42).map (formatStat "42+")).getLast? = some "42+" := by
    rw [List.getLast?_map, animValues_getLast, Option.map_some', hfmt,
      show Int.floor ((42 : ℚ)) = 42 by norm_num]
    decide
  refine ⟨hmap, ?_, ?_, ?_, ?_, ?_, ?_, rfl, rfl, rfl⟩
  · rw [hmap, Option.getD_some, List.length_map, hclosed, List.length_map,
      List.length_range]
  · rw [hmap, Option.getD_some, List.head?_map, hclosed]
    rw [show (50 : ℕ) = 49 + 1 from rfl, List.range_succ_eq_map, List.map_cons,
      List.head?_cons, Option.map_some', hfmt]
    rw [show (((0 : ℕ) : ℚ) + 1) * (42 / 50 : ℚ) = 21 / 25 by push_cast; norm_num]
    rw [show Int.floor ((21 : ℚ) / 25) = 0 by norm_num]
    decide
  · rw [hmap, Option.getD_some]
    exact hlast
  · simp only [finalStatText, hmap]
    rw [hlast]
    rfl
  · exact List.chain'_map_of_chain' Int.floor
      (fun a b hab => Int.floor_le_floor hab.le)
      (animValues_chain_lt 42 (by norm_num))
  · exact animValues_chain_lt 42 (by norm_num)

/-! ### Claim C4 (typing effect state machine) -/

/-- C4: the typing state machine's transitions are as claimed — reaching
the full text while typing yields a 2000ms pause and switches to deleting;
reaching 0 while deleting switches to typing, advances `textIndex` modulo
the playlist length and yields a 500ms pause; otherwise the delay is 100ms
while typing and 50ms while deleting — and for playlist `["AB"]` the
rendered texts over five ticks are `"A"`, `"AB"`, `"A"`, `""`, `"A"` with
`textIndex` wrapped back to 0. -/
theorem typeText_state_machine :
    (∀ s : TypingState, s.isDeleting = false →
      s.charIndex + 1 = ((s.texts.getD s.textIndex "").length : Int) →
      typeTextStep s = ({ s with charIndex := s.charIndex + 1, isDeleting := true },
        (s.texts.getD s.textIndex "").take (s.charIndex + 1).toNat, 2000)) ∧
    (∀ s : TypingState, s.isDeleting = true → s.charIndex - 1 = 0 →
      typeTextStep s = ({ s with charIndex := 0, isDeleting := false, textIndex := (s.textIndex + 1) % s.texts.length }, (s.texts.getD s.textIndex "").take 0, 500)) ∧
    (∀ s : TypingState, s.isDeleting = false →
      s.charIndex + 1 ≠ ((s.texts.getD s.textIndex "").length : Int) →
      (typeTextStep s).2.2 = 100) ∧
    (∀ s : TypingState, s.isDeleting = true → s.charIndex - 1 ≠ 0 →
      (typeTextStep s).2.2 = 50) ∧
    typeTrace ⟨["AB"], 0, 0, false⟩ 5 =
      [("A", 100), ("AB", 2000), ("A", 50), ("", 500), ("A", 100)] ∧
    (typeStateAfter ⟨["AB"], 0, 0, false⟩ 4).textIndex = 0 := by
  refine ⟨?_, ?_, ?_, ?_, by decide, by decide⟩
  · intro s h1 h2
    simp only [List.getD_eq_getElem?_getD] at h2
    simp [typeTextStep, h1, h2]
  · intro s h1 h2
    simp [typeTextStep, h1, h2]
  · intro s h1 h2
    simp only [List.getD_eq_getElem?_getD] at h2
    simp [typeTextStep, h1, h2]
  · intro s h1 h2
    simp [typeTextStep, h1, h2]

/-- C4, witness: the typing-to-pause transition applied at the concrete
state one character before the end of `"AB"`. -/
theorem typeText_state_machine_witness :
    typeTextStep ⟨["AB"], 0, 1, false⟩ = (⟨["AB"], 0, 2, true⟩, "AB", 2000) :=
  (typeText_state_machine.1 ⟨["AB"], 0, 1, false⟩ rfl (by decide)).trans (by decide)

/-! ### Claim C5 (field validation) -/

/-- C5, counterexample: a required email field whose value is a single
space is empty after trimming, yet `validateField` reports the email
message, not "This field is required" — the email check overwrites the
required-field message. -/
theorem validateField_required_message_refuted :
    (⟨true, "email", " "⟩ : FormField).required = true ∧
    jsTrimEmpty " " = true ∧
    (validateField ⟨true, "email", " "⟩).1 = false ∧
    (validateField ⟨true, "email", " "⟩).2 ≠ some "This field is required" ∧
    (validateField ⟨true, "email", " "⟩).2 = some "Please enter a valid email address" := by
  refine ⟨rfl, by decide, by decide, by decide, by decide⟩

/-- C5, amended: a required field empty after trimming is always invalid;
the message is "This field is required" unless the field is email-typed
with a (whitespace) nonempty value, in which case the email message takes
precedence; an email-typed field with nonempty value is invalid exactly
when the regex fails (`"a@b"` invalid, `"a@b.com"` valid); the inline
error is attached exactly when invalid. -/
theorem validateField_amended :
    (∀ f : FormField, f.required = true → jsTrimEmpty f.value = true →
      (validateField f).1 = false) ∧
    (∀ f : FormField, f.required = true → jsTrimEmpty f.value = true →
      ¬(f.fieldType = "email" ∧ f.value ≠ "") →
      validateField f = (false, some "This field is required")) ∧
    (∀ f : FormField, f.required = true → jsTrimEmpty f.value = true →
      f.fieldType = "email" → f.value ≠ "" →
      validateField f = (false, some "Please enter a valid email address")) ∧
    (∀ f : FormField, f.fieldType = "email" → f.value ≠ "" →
      ((validateField f).1 = false ↔ emailMatch f.value = false)) ∧
    (∀ f : FormField, (validateField f).1 = true ↔ (validateField f).2 = none) ∧
    emailMatch "a@b" = false ∧ emailMatch "a@b.com" = true ∧
    validateField ⟨true, "email", "a@b"⟩ =
      (false, some "Please enter a valid email address") ∧
    validateField ⟨true, "email", "a@b.com"⟩ = (true, none) := by
  refine ⟨?_, ?_, ?_, ?_, ?_, by decide, by decide, by decide, by decide⟩
  · intro f h1 h2
    show (validateFieldCore f).1 = false
    simp only [validateFieldCore]
    split_ifs with ha hb
    · rfl
    · rfl
    · exact absurd ⟨h1, h2⟩ hb
  · intro f h1 h2 h3
    have hcore : validateFieldCore f = (false, "This field is required") := by
      simp only [validateFieldCore]
      rw [if_neg (fun hcon => h3 ⟨hcon.1, hcon.2.1⟩), if_pos ⟨h1, h2⟩]
    simp [validateField, hcore]
  · intro f h1 h2 h3 h4
    have hm : emailMatch f.value = false := emailMatch_eq_false_of_jsTrimEmpty h2
    have hcore : validateFieldCore f = (false, "Please enter a valid email address") := by
      simp only [validateFieldCore]
      rw [if_pos ⟨h3, h4, hm⟩]
    simp [validateField, hcore]
  · intro f h1 h2
    cases hm : emailMatch f.value with
    | false =>
      have hcore : (validateFieldCore f).1 = false := by
        simp only [validateFieldCore]
        rw [if_pos ⟨h1, h2, hm⟩]
      constructor
      · intro _; rfl
      · intro _
        show (validateFieldCore f).1 = false
        exact hcore
    | true =>
      have ht : jsTrimEmpty f.value = false := jsTrimEmpty_eq_false_of_emailMatch hm
      have hcore : validateFieldCore f = (true, "") := by
        simp only [validateFieldCore]
        rw [if_neg (fun hcon => by
          have := hcon.2.2
          rw [hm] at this
          simp at this)]
        rw [if_neg (fun hcon => by
          have := hcon.2
          rw [ht] at this
          simp at this)]
      constructor
      · intro hfalse
        have : (validateFieldCore f).1 = false := hfalse
        rw [hcore] at this
        simp at this
      · intro hnone
        simp at hnone
  · intro f
    show ((validateFieldCore f).1 = true ↔ _)
    cases h : (validateFieldCore f).1 <;> simp [validateField, h]

/-- C5, witness: the amended required-message rule applied at a concrete
required text field with empty value. -/
theorem validateField_amended_witness :
    validateField ⟨true, "text", ""⟩ = (false, some "This field is required") :=
  validateField_amended.2.1 ⟨true, "text", ""⟩ rfl (by decide) (by decide)

/-! ### Claim C6 (submit aborts on invalid form) -/

/-- C6: when any field is invalid, `handleFormSubmit` raises exactly one
aggregate error toast and aborts — the submit button is unchanged (not
disabled, label intact, no loading class), no mail-client handoff happens
and the pending state is not entered. -/
theorem handleFormSubmit_invalid_aborts :
    ∀ (fields : List FormField) (btn : SubmitBtn),
      (∃ f ∈ fields, (validateField f).1 = false) →
      handleFormSubmit fields btn =
        { btn := btn, notifications := [("Please correct the errors above", "error")],
          mailtoOpened := false, enteredPending := false } := by
  intro fields btn hx
  rcases hx with ⟨f, hf, hv⟩
  have hall : fields.all (fun f => (validateField f).1) = false := by
    cases h : fields.all (fun f => (validateField f).1) with
    | false => rfl
    | true =>
      have := List.all_eq_true.mp h f hf
      rw [hv] at this
      exact absurd this (by simp)
  rw [handleFormSubmit, hall, if_pos rfl]

/-- C6, witness: the abort outcome at a concrete one-field invalid form. -/
theorem handleFormSubmit_invalid_aborts_witness :
    handleFormSubmit [⟨true, "text", ""⟩] ⟨false, "Send Message", false⟩ =
      { btn := ⟨false, "Send Message", false⟩,
        notifications := [("Please correct the errors above", "error")],
        mailtoOpened := false, enteredPending := false } :=
  handleFormSubmit_invalid_aborts [⟨true, "text", ""⟩] ⟨false, "Send Message", false⟩
    (by decide)

/-! ### Claim C7 (notification dismissal timing) -/

/-- C7: for any click at time `t` before the 5000ms auto-dismiss, the
notification element is removed at `t + 300` (the click's 300ms removal
timeout fires first and the later timeouts find no parent); without a
click, it is removed at 5300 (auto-dismiss at 5000 plus 300). -/
theorem showNotification_click_removal :
    (∀ t : Nat, t < 5000 → (showNotifRun (some t)).removedAt = some (t + 300)) ∧
    (showNotifRun none).removedAt = some 5300 := by
  constructor
  · intro t ht
    by_cases h1 : t < 100
    · have h2 : ¬ (t + 300 < 100) := by omega
      have h3 : t + 300 < 5000 := by omega
      simp [showNotifRun, insertEv, runQ, h1, h2, h3]
    · by_cases h4 : t + 300 < 5000
      · simp [showNotifRun, insertEv, runQ, h1, ht, h4]
      · have h5 : ¬ (5300 < t + 300) := by omega
        simp [showNotifRun, insertEv, runQ, h1, ht, h4, h5]
  · decide

/-- C7, witness: clicking at 1000ms removes the element at 1300ms, not
5300ms. -/
theorem showNotification_click_removal_witness :
    (1000 : Nat) < 5000 ∧ (showNotifRun (some 1000)).removedAt = some 1300 :=
  ⟨by norm_num, showNotification_click_removal.1 1000 (by norm_num)⟩

/-! ### Claim C8 (typing initialization is idempotent) -/

/-- C8: `initializeTypingAnimation` is idempotent — running it twice equals
running it once, at most one timer chain is ever added, and while the
running flag is set a call is a no-op. -/
theorem initializeTypingAnimation_idempotent :
    ∀ s : TypingInitState,
      initializeTypingAnimation (initializeTypingAnimation s) =
        initializeTypingAnimation s ∧
      (initializeTypingAnimation (initializeTypingAnimation s)).timerChains ≤
        s.timerChains + 1 ∧
      (s.typingAnimationRunning = true → initializeTypingAnimation s = s) := by
  intro s
  rcases s with ⟨ht, hr, n⟩
  cases ht <;> cases hr <;> simp [initializeTypingAnimation]

/-- C8, witness: a call while the running flag is set is a no-op. -/
theorem initializeTypingAnimation_idempotent_witness :
    initializeTypingAnimation ⟨true, true, 1⟩ = ⟨true, true, 1⟩ :=
  (initializeTypingAnimation_idempotent ⟨true, true, 1⟩).2.2 rfl

/-! ### Claim C9 (one-shot viewport subscriptions never refire) -/

/-- C9: after a first qualifying crossing fires a one-shot subscription
(stat counters, lazy images) and unobserves the element, a later crossing
of the same element — intersecting or not — invokes no callback. -/
theorem onceSubscription_never_refires :
    ∀ (obs : Nat → Bool) (e : Nat) (b : Bool),
      (statsObserverDeliver (statsObserverDeliver obs e true).observers e b).callbackFired = false ∧
      (lazyImageDeliver (lazyImageDeliver obs e true).observers e b).callbackFired = false := by
  intro obs e b
  by_cases h : obs e = true
  · constructor <;> simp [statsObserverDeliver, lazyImageDeliver, unobserve, h]
  · constructor <;> simp [statsObserverDeliver, lazyImageDeliver, unobserve, h]

/-! ### Claim C10 (decimal format beats the '+' suffix) -/

/-- C10: for any stat element whose text parses and contains both a `'.'`
and a trailing `'+'`, every rendered step uses the two-decimal format with
the `'+'` dropped (the `includes('.')` branch is checked first), so the
final text is `toFixed2` of the parsed value — which contains no `'+'` —
and therefore differs from the original text. -/
theorem animateStat_dot_overrides_plus :
    ∀ (orig : String) (v : ℚ),
      parseFloatJS orig = some v →
      '.' ∈ orig.data →
      orig.data.getLast? = some '+' →
      animateStatValue orig = some ((animValues v).map toFixed2) ∧
      finalStatText orig = toFixed2 v ∧
      finalStatText orig ≠ orig := by
  intro orig v hp hdot hplus
  have hfmt : ∀ q : ℚ, formatStat orig q = toFixed2 q := by
    intro q
    rw [formatStat, if_pos hdot]
  have h1 : animateStatValue orig = some ((animValues v).map toFixed2) := by
    rw [animateStatValue, hp, Option.map_some']
    congr 1
    exact List.map_congr_left (fun q _ => hfmt q)
  have h2 : finalStatText orig = toFixed2 v := by
    simp only [finalStatText, h1]
    rw [List.getLast?_map, animValues_getLast, Option.map_some']
    rfl
  refine ⟨h1, h2, ?_⟩
  intro heq
  rw [h2] at heq
  have hmem : '+' ∈ orig.data := List.mem_of_getLast?_eq_some hplus
  rw [← heq] at hmem
  exact toFixed2_no_plus v hmem

/-- C10, witness: for `"3.5+"` the parsed value is 7/2, the final text is
`toFixed2 (7/2) = "3.50"`, and it differs from `"3.5+"`. -/
theorem animateStat_dot_overrides_plus_witness :
    parseFloatJS "3.5+" = some (7 / 2 : ℚ) ∧
    finalStatText "3.5+" = toFixed2 (7 / 2 : ℚ) ∧
    toFixed2 (7 / 2 : ℚ) = "3.50" ∧
    finalStatText "3.5+" ≠ "3.5+" := by
  have hp : parseFloatJS "3.5+" = some (7 / 2 : ℚ) := by
    rw [parseFloatJS, (by decide : parseFloatParts "3.5+" = some (1, 3, 5, 1)),
      Option.map_some']
    norm_num
  have h := animateStat_dot_overrides_plus "3.5+" (7 / 2) hp (by decide) (by decide)
  have h350 : Int.floor ((7 : ℚ) / 2 * 100 + 1 / 2) = 350 := by norm_num
  have hfx : toFixed2 (7 / 2 : ℚ) = "3.50" := by
    rw [toFixed2, if_neg (by norm_num)]
    simp only [toFixed2Pos]
    rw [h350]
    decide
  exact ⟨hp, h.2.1, hfx, h.2.2⟩

end Portfolio
